import Mathlib

/-!
Verification development for the `goCheckAmi` discovery pipeline
(`src/app.go`). Go strings are modelled as `List Char`; fallible SDK
calls are modelled as `Except String` oracle results supplied in an
environment record; nil-pointer dereferences are modelled by `Option`
(`none` = runtime fault).
-/

/-- `strings.HasSuffix(s, "*")` specialised to the wildcard marker
(app.go lines 217, 225). -/
def hasSuffixStar (s : List Char) : Bool :=
  s.getLast? = some '*'

/-- `strings.TrimSuffix(filter, "*")` (app.go line 199): strip one
trailing wildcard marker when present. -/
def trimSuffixStar (s : List Char) : List Char :=
  if hasSuffixStar s then s.dropLast else s

/-- The normalized filter handed to `DescribeParameters`
(app.go lines 199-227): `cleanFilter := strings.TrimSuffix(filter, "*")`,
then append `"*"` when the result does not already end with it. -/
def searchFilterOf (filter : List Char) : List Char :=
  let cleanFilter := trimSuffixStar filter
  if hasSuffixStar cleanFilter then cleanFilter else cleanFilter ++ ['*']

theorem hasSuffixStar_iff (s : List Char) :
    hasSuffixStar s = true ↔ s.getLast? = some '*' := by
  simp [hasSuffixStar]

/-- When the raw filter has no wildcard before its final position, the
trimmed filter does not end with a wildcard marker. -/
theorem hasSuffixStar_trimSuffixStar (s : List Char) (h : '*' ∉ s.dropLast) :
    hasSuffixStar (trimSuffixStar s) = false := by
  unfold trimSuffixStar
  by_cases hs : hasSuffixStar s = true
  · rw [if_pos hs, Bool.eq_false_iff]
    intro hcon
    exact h (List.mem_of_getLast?_eq_some ((hasSuffixStar_iff _).1 hcon))
  · rw [if_neg hs]
    exact Bool.eq_false_iff.2 hs

/-- Under the same hypothesis, normalization is exactly
"trim one trailing marker, then append one". -/
theorem searchFilterOf_eq_trim_append (s : List Char) (h : '*' ∉ s.dropLast) :
    searchFilterOf s = trimSuffixStar s ++ ['*'] := by
  unfold searchFilterOf
  rw [if_neg]
  rw [hasSuffixStar_trimSuffixStar s h]
  simp

/-- C1: for every raw filter with no internal wildcard (no `'*'` before
the final position), the normalized filter equals the raw filter with at
most one trailing wildcard marker stripped and then exactly one appended;
in particular `normalize("") = "*"`, `normalize("foo*") = "foo*"` and
`normalize("foo") = "foo*"` (app.go lines 199-227). -/
theorem c1_normalize_strip_then_append (s : List Char) (h : '*' ∉ s.dropLast) :
    searchFilterOf s = trimSuffixStar s ++ ['*']
    ∧ searchFilterOf [] = ['*']
    ∧ searchFilterOf ['f', 'o', 'o', '*'] = ['f', 'o', 'o', '*']
    ∧ searchFilterOf ['f', 'o', 'o'] = ['f', 'o', 'o', '*'] :=
  ⟨searchFilterOf_eq_trim_append s h, by decide, by decide, by decide⟩

/-- Witness for C1 at the raw filter "foo". -/
theorem c1_normalize_strip_then_append_witness :
    searchFilterOf ['f', 'o', 'o'] = trimSuffixStar ['f', 'o', 'o'] ++ ['*']
    ∧ searchFilterOf [] = ['*']
    ∧ searchFilterOf ['f', 'o', 'o', '*'] = ['f', 'o', 'o', '*']
    ∧ searchFilterOf ['f', 'o', 'o'] = ['f', 'o', 'o', '*'] :=
  c1_normalize_strip_then_append ['f', 'o', 'o'] (by decide)

/-- C2 counterexample: the raw filter "*" normalizes to "*", which BEGINS
with a wildcard marker, refuting "never begins with a wildcard marker";
and the raw filter "f***" normalizes to "f**", which ends with two
wildcard markers, refuting "ends with exactly one". -/
theorem c2_normalized_invariant_cex :
    (searchFilterOf ['*']).head? = some '*'
    ∧ searchFilterOf ['f', '*', '*', '*'] = ['f', '*', '*'] := by
  constructor
  · rfl
  · rfl

/-- C2 amended: for every raw filter the normalized filter ends with at
least one wildcard marker; when the raw filter has no internal wildcard
it ends with exactly one; and when additionally the raw filter is
non-empty and does not itself begin with a wildcard marker, the
normalized filter does not begin with one (app.go lines 199-236). -/
theorem c2_normalized_trailing_star (s : List Char) :
    hasSuffixStar (searchFilterOf s) = true
    ∧ ('*' ∉ s.dropLast →
        (searchFilterOf s).getLast? = some '*'
        ∧ ((searchFilterOf s).dropLast).getLast? ≠ some '*')
    ∧ ('*' ∉ s.dropLast → s ≠ [] → s.head? ≠ some '*' →
        (searchFilterOf s).head? ≠ some '*') := by
  refine ⟨?_, ?_, ?_⟩
  · unfold searchFilterOf
    by_cases hc : hasSuffixStar (trimSuffixStar s) = true
    · rwa [if_pos hc]
    · rw [if_neg hc, hasSuffixStar_iff]
      exact List.getLast?_concat _
  · intro h
    rw [searchFilterOf_eq_trim_append s h]
    refine ⟨List.getLast?_concat _, ?_⟩
    rw [List.dropLast_concat]
    intro hcon
    exact Bool.eq_false_iff.1 (hasSuffixStar_trimSuffixStar s h)
      ((hasSuffixStar_iff _).2 hcon)
  · intro h hne hhead
    rw [searchFilterOf_eq_trim_append s h, List.head?_append]
    unfold trimSuffixStar
    by_cases hs : hasSuffixStar s = true
    · rw [if_pos hs, List.head?_dropLast]
      by_cases hlen : 1 < s.length
      · rw [if_pos hlen]
        cases s with
        | nil => exact absurd rfl hne
        | cons a t => simpa using hhead
      · rw [if_neg hlen]
        exfalso
        match s, hne with
        | [c], _ =>
          have : c = '*' := by
            have := (hasSuffixStar_iff [c]).1 hs
            simpa using this
          exact hhead (by simp [this])
        | a :: b :: t, _ => exact hlen (by simp)
    · rw [if_neg hs]
      cases s with
      | nil => exact absurd rfl hne
      | cons a t => simpa using hhead

/-- Witness for C2 amended at the raw filter "foo". -/
theorem c2_normalized_trailing_star_witness :
    hasSuffixStar (searchFilterOf ['f', 'o', 'o']) = true
    ∧ ((searchFilterOf ['f', 'o', 'o']).getLast? = some '*'
        ∧ ((searchFilterOf ['f', 'o', 'o']).dropLast).getLast? ≠ some '*')
    ∧ (searchFilterOf ['f', 'o', 'o']).head? ≠ some '*' := by
  obtain ⟨h1, h2, h3⟩ := c2_normalized_trailing_star ['f', 'o', 'o']
  exact ⟨h1, h2 (by decide), h3 (by decide) (by decide) (by decide)⟩

/-! ## Data model (app.go lines 26-34 and the AWS SDK types used) -/

/-- `EC2Instance` (app.go lines 26-29). -/
structure EC2Instance where
  Name : String
  AMI : String
deriving DecidableEq

/-- `AWSResult` (app.go lines 31-34). -/
structure AWSResult where
  parameters : List String
  instances : List EC2Instance
deriving DecidableEq

/-- An EC2 tag as used by app.go: `Key` and `Value` are `*string`
(nullable) in the SDK; `none` models a nil pointer. -/
structure Ec2Tag where
  key : Option String
  value : Option String
deriving DecidableEq

/-- An EC2 instance as consumed by app.go lines 262-278: its tag list
and its nullable `ImageId`. -/
structure Ec2InstanceData where
  tags : List Ec2Tag
  imageId : Option String
deriving DecidableEq

/-- A reservation: a list of instances (app.go line 261). -/
structure Reservation where
  instances : List Ec2InstanceData
deriving DecidableEq

/-- One page returned by the `DescribeParameters` paginator: for each
parameter only its nullable `Name` is consumed (app.go lines 243-247). -/
structure SSMPage where
  parameters : List (Option String)
deriving DecidableEq

/-- One page returned by the `DescribeInstances` paginator
(app.go lines 256-261). -/
structure EC2Page where
  reservations : List Reservation
deriving DecidableEq

/-! ## SSM parameter collection (app.go lines 238-249) -/

/-- Errors produced by `Processing`, one constructor per `fmt.Errorf`
site; each constructor records the values interpolated into the Go
format string (app.go lines 153, 163, 170, 179, 185, 241, 259). -/
inductive ProcError where
  /-- "unable to load SDK config: %v" (line 153). -/
  | loadFail (msg : String)
  /-- "failed to validate identity with custom endpoint %q: %w ..."
  (line 163): names the override endpoint, wraps the STS error. -/
  | authValidation (endpoint : String) (cause : String)
  /-- "aws cli not found in PATH, cannot perform sso login: %w"
  (line 170): names the missing tool, wraps the STS validation error. -/
  | cliNotFound (tool : String) (cause : String)
  /-- "aws sso login failed: %w" (line 179). -/
  | loginFailed (cause : String)
  /-- "unable to reload SDK config after login: %v" (line 185). -/
  | reloadFail (msg : String)
  /-- "failed to list params: %w" (line 241). -/
  | ssmQuery (cause : String)
  /-- "failed to describe instances: %w" (line 259). -/
  | ec2Query (cause : String)
deriving DecidableEq

/-- The names harvested from one SSM page: every parameter whose `Name`
pointer is non-nil, in arrival order (app.go lines 243-247). -/
def pageNames (p : SSMPage) : List String :=
  p.parameters.filterMap id

/-- The SSM pagination loop (app.go lines 238-248): consume page results
in order; a page-fetch error aborts the whole query, discarding every
name already collected. -/
def runSSM : List (Except String SSMPage) → Except ProcError (List String)
  | [] => .ok []
  | .error e :: _ => .error (.ssmQuery e)
  | .ok p :: rest =>
    match runSSM rest with
    | .error e => .error e
    | .ok tail => .ok (pageNames p ++ tail)

/-! ## EC2 instance walk (app.go lines 251-281) -/

/-- The tag loop of app.go lines 263-269: walk the tags in order,
dereferencing each tag's `Key` pointer (`none` key = nil dereference =
fault, modelled as `none`); at the first tag whose key is "Name",
dereference its `Value` pointer and stop. No "Name" tag yields the
zero-value name "". -/
def findName : List Ec2Tag → Option String
  | [] => some ""
  | t :: rest =>
    match t.key with
    | none => none
    | some k => if k = "Name" then t.value else findName rest

/-- Projection of one instance (app.go lines 262-277): name from the tag
loop, AMI from the nullable `ImageId` with "" as default. `none` = the
tag loop faulted. -/
def projInstance (inst : Ec2InstanceData) : Option EC2Instance :=
  match findName inst.tags with
  | none => none
  | some n => some { Name := n, AMI := inst.imageId.getD "" }

/-- All instances of one page in reservation-then-instance order
(app.go lines 261-278); `none` = some projection faulted. -/
def walkPage (page : EC2Page) : Option (List EC2Instance) :=
  ((page.reservations.map Reservation.instances).flatten).mapM projInstance

/-- The EC2 pagination loop (app.go lines 256-280): page results in
order; a page-fetch error aborts the query discarding partial results;
a nil-dereference fault (`none`) aborts the whole run. -/
def runEC2 : List (Except String EC2Page) → Option (Except ProcError (List EC2Instance))
  | [] => some (.ok [])
  | .error e :: _ => some (.error (.ec2Query e))
  | .ok p :: rest =>
    match walkPage p with
    | none => none
    | some insts =>
      match runEC2 rest with
      | none => none
      | some (.error e) => some (.error e)
      | some (.ok tail) => some (.ok (insts ++ tail))

/-! ## The orchestrator (app.go lines 121-284) -/

/-- Oracle environment for one `Processing` run: the outcome each
external call would produce, in program order. `endpointURL` is the
value `getEndpointFromConfig` returned (line 123); `loadConfig` is the
first `config.LoadDefaultConfig` (line 151); `validate` is
`stsClient.GetCallerIdentity` (line 158); `lookPath` is
`exec.LookPath("aws")` (line 169); `loginRun` is `cmd.Run()` of
`aws sso login` (line 178); `reloadConfig` is the second
`config.LoadDefaultConfig` (line 183); `ssmPages` and `ec2Pages` are the
successive paginator `NextPage` outcomes. -/
structure Env where
  endpointURL : String
  loadConfig : Except String Unit
  validate : Except String Unit
  lookPath : Except String Unit
  loginRun : Except String Unit
  reloadConfig : Except String Unit
  ssmPages : List (Except String SSMPage)
  ec2Pages : List (Except String EC2Page)

/-- Observable side-effecting events of a run, for counting subprocess
invocations and context (re)builds. -/
inductive Event where
  /-- A `config.LoadDefaultConfig` call (context build). -/
  | buildConfig
  /-- A `cmd.Run()` of the `aws sso login` subprocess. -/
  | loginAws
deriving DecidableEq

/-- Number of context builds occurring strictly after the first login
subprocess invocation. -/
def rebuildsAfterLogin (tr : List Event) : Nat :=
  ((tr.dropWhile (fun e => e ≠ .loginAws)).drop 1).count .buildConfig

/-- The discovery phase (app.go lines 189-283): SSM query, then EC2
query; the first failure is returned alone and no partial `AWSResult`
exists (the function's only success value carries both complete lists). -/
def discover (env : Env) : Option (Except ProcError AWSResult) :=
  match runSSM env.ssmPages with
  | .error e => some (.error e)
  | .ok params =>
    match runEC2 env.ec2Pages with
    | none => none
    | some (.error e) => some (.error e)
    | some (.ok insts) => some (.ok { parameters := params, instances := insts })

/-- `Processing` (app.go lines 121-284) as a function of the oracle
environment, paired with the run's event trace. The result is `none`
when the run faults on a nil dereference, otherwise the returned
`(*AWSResult, error)` pair. -/
def Processing (env : Env) : Option (Except ProcError AWSResult) × List Event :=
  match env.loadConfig with
  | .error m => (some (.error (.loadFail m)), [.buildConfig])
  | .ok _ =>
    match env.validate with
    | .ok _ => (discover env, [.buildConfig])
    | .error v =>
      if env.endpointURL ≠ "" then
        (some (.error (.authValidation env.endpointURL v)), [.buildConfig])
      else
        match env.lookPath with
        | .error _ => (some (.error (.cliNotFound "aws" v)), [.buildConfig])
        | .ok _ =>
          match env.loginRun with
          | .error r => (some (.error (.loginFailed r)), [.buildConfig, .loginAws])
          | .ok _ =>
            match env.reloadConfig with
            | .error m =>
              (some (.error (.reloadFail m)), [.buildConfig, .loginAws, .buildConfig])
            | .ok _ => (discover env, [.buildConfig, .loginAws, .buildConfig])

/-! ## Authentication-phase claims -/

/-- C3: with an endpoint override in effect, a validation failure is
terminal: the run returns the error naming the override endpoint and
wrapping the STS failure, and the login subprocess is never invoked
(app.go lines 158-164). -/
theorem c3_override_failure_terminal (env : Env) (v : String)
    (h0 : env.loadConfig = .ok ()) (h1 : env.endpointURL ≠ "")
    (h2 : env.validate = .error v) :
    Processing env
      = (some (.error (.authValidation env.endpointURL v)), [.buildConfig])
    ∧ (Processing env).2.count .loginAws = 0 := by
  have hP : Processing env
      = (some (.error (.authValidation env.endpointURL v)), [.buildConfig]) := by
    unfold Processing
    rw [h0, h2]
    dsimp only
    rw [if_pos h1]
  exact ⟨hP, by rw [hP]; rfl⟩

/-- Concrete environment for the C3 witness: LocalStack override with an
expired-credentials validation failure. -/
def c3Env : Env where
  endpointURL := "http://localhost:4566"
  loadConfig := .ok ()
  validate := .error "expired token"
  lookPath := .ok ()
  loginRun := .ok ()
  reloadConfig := .ok ()
  ssmPages := []
  ec2Pages := []

/-- Witness for C3. -/
theorem c3_override_failure_terminal_witness :
    Processing c3Env
      = (some (.error (.authValidation c3Env.endpointURL "expired token")),
         [.buildConfig])
    ∧ (Processing c3Env).2.count .loginAws = 0 :=
  c3_override_failure_terminal c3Env "expired token" rfl (by decide) rfl

/-- C9: with no override, a validation failure, and the aws executable
absent from PATH, the run fails with the error naming the missing tool
and wrapping the ORIGINAL validation error (the lookup error is
discarded), and the login subprocess is never invoked
(app.go lines 169-171). -/
theorem c9_cli_missing_wraps_validation (env : Env) (v p : String)
    (h0 : env.loadConfig = .ok ()) (h1 : env.endpointURL = "")
    (h2 : env.validate = .error v) (h3 : env.lookPath = .error p) :
    Processing env = (some (.error (.cliNotFound "aws" v)), [.buildConfig])
    ∧ (Processing env).2.count .loginAws = 0 := by
  have hP : Processing env
      = (some (.error (.cliNotFound "aws" v)), [.buildConfig]) := by
    unfold Processing
    rw [h0, h2]
    dsimp only
    rw [if_neg (by simp [h1]), h3]
  exact ⟨hP, by rw [hP]; rfl⟩

/-- Concrete environment for the C9 witness: the lookup error string
differs from the validation error string, so the wrapped cause being the
validation error is observable. -/
def c9Env : Env where
  endpointURL := ""
  loadConfig := .ok ()
  validate := .error "expired token"
  lookPath := .error "exec aws not found"
  loginRun := .ok ()
  reloadConfig := .ok ()
  ssmPages := []
  ec2Pages := []

/-- Witness for C9. -/
theorem c9_cli_missing_wraps_validation_witness :
    Processing c9Env = (some (.error (.cliNotFound "aws" "expired token")),
      [.buildConfig])
    ∧ (Processing c9Env).2.count .loginAws = 0 :=
  c9_cli_missing_wraps_validation c9Env "expired token" "exec aws not found"
    rfl rfl rfl rfl

/-- Concrete environment refuting C4 as stated: no override, validation
fails, the aws cli is available, but the login subprocess itself fails. -/
def c4FailEnv : Env where
  endpointURL := ""
  loadConfig := .ok ()
  validate := .error "expired token"
  lookPath := .ok ()
  loginRun := .error "exit status 1"
  reloadConfig := .ok ()
  ssmPages := []
  ec2Pages := []

/-- C4 counterexample: in `c4FailEnv` the claim's hypotheses hold (no
override, validation fails, login tool available) and exactly one login
invocation occurs, but the context is rebuilt ZERO times afterward, not
exactly once: a failing `aws sso login` aborts the run before the
rebuild (app.go lines 178-180). -/
theorem c4_rebuild_cex :
    c4FailEnv.endpointURL = ""
    ∧ c4FailEnv.validate = .error "expired token"
    ∧ c4FailEnv.lookPath = .ok ()
    ∧ (Processing c4FailEnv).2.count .loginAws = 1
    ∧ rebuildsAfterLogin (Processing c4FailEnv).2 = 0 := by
  refine ⟨rfl, rfl, rfl, ?_, ?_⟩ <;> decide

/-- Case split on the only event traces a run can produce. -/
theorem processing_trace_cases (env : Env) :
    (Processing env).2 = [.buildConfig]
    ∨ (Processing env).2 = [.buildConfig, .loginAws]
    ∨ (Processing env).2 = [.buildConfig, .loginAws, .buildConfig] := by
  unfold Processing
  cases env.loadConfig with
  | error m => exact Or.inl rfl
  | ok u =>
    cases env.validate with
    | ok u2 => exact Or.inl rfl
    | error v =>
      dsimp only
      by_cases h : env.endpointURL ≠ ""
      · rw [if_pos h]; exact Or.inl rfl
      · rw [if_neg h]
        cases env.lookPath with
        | error p => exact Or.inl rfl
        | ok u3 =>
          cases env.loginRun with
          | error r => exact Or.inr (Or.inl rfl)
          | ok u4 =>
            cases env.reloadConfig with
            | error m => exact Or.inr (Or.inr rfl)
            | ok u5 => exact Or.inr (Or.inr rfl)

/-- C4 amended: with no override, failed validation, and the aws cli
available, exactly one login subprocess invocation occurs; when the
login succeeds the context is rebuilt exactly once afterward (trace
build-login-build); when the login fails the run aborts with no rebuild;
and no run whatsoever performs a second login or a second rebuild
(app.go lines 166-187). -/
theorem c4_one_login_one_rebuild (env : Env) (v : String)
    (h0 : env.loadConfig = .ok ()) (h1 : env.endpointURL = "")
    (h2 : env.validate = .error v) (h3 : env.lookPath = .ok ()) :
    (Processing env).2.count .loginAws = 1
    ∧ (env.loginRun = .ok () →
        (Processing env).2 = [.buildConfig, .loginAws, .buildConfig]
        ∧ rebuildsAfterLogin (Processing env).2 = 1)
    ∧ (∀ r, env.loginRun = .error r →
        (Processing env).2 = [.buildConfig, .loginAws]
        ∧ rebuildsAfterLogin (Processing env).2 = 0)
    ∧ (∀ e : Env, (Processing e).2.count .loginAws ≤ 1
        ∧ rebuildsAfterLogin (Processing e).2 ≤ 1) := by
  have hpre : (Processing env).2
      = (match env.loginRun with
         | .error _ => [Event.buildConfig, Event.loginAws]
         | .ok _ => [Event.buildConfig, Event.loginAws, Event.buildConfig]) := by
    unfold Processing
    rw [h0, h2]
    dsimp only
    rw [if_neg (by simp [h1]), h3]
    cases env.loginRun with
    | error r => rfl
    | ok u =>
      cases env.reloadConfig with
      | error m => rfl
      | ok u2 => rfl
  refine ⟨?_, ?_, ?_, ?_⟩
  · rw [hpre]
    cases env.loginRun with
    | error r => rfl
    | ok u => rfl
  · intro hr
    rw [hpre, hr]
    exact ⟨rfl, rfl⟩
  · intro r hr
    rw [hpre, hr]
    exact ⟨rfl, rfl⟩
  · intro e
    rcases processing_trace_cases e with h | h | h <;> rw [h] <;>
      exact ⟨by decide, by decide⟩

/-- Concrete environment for the C4 witness: the login subprocess
succeeds. -/
def c4OkEnv : Env where
  endpointURL := ""
  loadConfig := .ok ()
  validate := .error "expired token"
  lookPath := .ok ()
  loginRun := .ok ()
  reloadConfig := .ok ()
  ssmPages := []
  ec2Pages := []

/-- Witness for C4 amended. -/
theorem c4_one_login_one_rebuild_witness :
    (Processing c4OkEnv).2.count .loginAws = 1
    ∧ (Processing c4OkEnv).2 = [.buildConfig, .loginAws, .buildConfig]
    ∧ rebuildsAfterLogin (Processing c4OkEnv).2 = 1 := by
  obtain ⟨h1, h2, h3, h4⟩ :=
    c4_one_login_one_rebuild c4OkEnv "expired token" rfl rfl rfl rfl
  exact ⟨h1, (h2 rfl).1, (h2 rfl).2⟩

/-! ## Discovery-phase claims -/

/-- The SSM loop over all-successful pages yields exactly the page
names, page by page, in order. -/
theorem runSSM_all_ok (ps : List SSMPage) :
    runSSM (ps.map .ok) = .ok ((ps.map pageNames).flatten) := by
  induction ps with
  | nil => rfl
  | cons p rest ih => simp [runSSM, ih]

/-- The SSM loop aborts with the page-fetch error as soon as a page
fails, whatever was already collected. -/
theorem runSSM_page_error (gs : List SSMPage) (e : String)
    (rest : List (Except String SSMPage)) :
    runSSM (gs.map .ok ++ .error e :: rest) = .error (.ssmQuery e) := by
  induction gs with
  | nil => rfl
  | cons p t ih => simp [runSSM, ih]

/-- The EC2 loop aborts with the page-fetch error as soon as a page
fails, provided the earlier pages walk without a nil fault. -/
theorem runEC2_page_error (ge : List EC2Page)
    (hw : ∀ p ∈ ge, (walkPage p).isSome = true) (e : String)
    (rest : List (Except String EC2Page)) :
    runEC2 (ge.map .ok ++ .error e :: rest) = some (.error (.ec2Query e)) := by
  induction ge with
  | nil => rfl
  | cons p t ih =>
    obtain ⟨insts, hinsts⟩ := Option.isSome_iff_exists.1 (hw p (by simp))
    have ht := ih (fun q hq => hw q (by simp [hq]))
    simp only [List.map_cons, List.cons_append, runEC2, hinsts, List.append_eq, ht]

/-- When the authentication phase completes, the run's result is the
discovery phase's result. -/
theorem processing_fst_of_auth_ok (env : Env) (h0 : env.loadConfig = .ok ())
    (hauth : env.validate = .ok ()
      ∨ (env.endpointURL = "" ∧ env.lookPath = .ok () ∧ env.loginRun = .ok ()
          ∧ env.reloadConfig = .ok ())) :
    (Processing env).1 = discover env := by
  unfold Processing
  rcases hauth with hv | ⟨h1, h3, h4, h5⟩
  · rw [h0, hv]
  · cases hv : env.validate with
    | ok u => rw [h0]
    | error v =>
      rw [h0]
      dsimp only
      rw [if_neg (by simp [h1]), h3, h4, h5]

/-- C5: in every run whose authentication phase completes, a page-fetch
failure in either the parameter search or the instance walk makes the
whole run return a single error wrapping that page-fetch failure; the
result carries no partial `AWSResult` (the error constructors of
`ProcError` hold no parameter or instance list). -/
theorem c5_page_failure_aborts_run (env : Env)
    (h0 : env.loadConfig = .ok ())
    (hauth : env.validate = .ok ()
      ∨ (env.endpointURL = "" ∧ env.lookPath = .ok () ∧ env.loginRun = .ok ()
          ∧ env.reloadConfig = .ok ())) :
    (∀ (gs : List SSMPage) (e : String) (rest : List (Except String SSMPage)),
      env.ssmPages = gs.map Except.ok ++ .error e :: rest →
      (Processing env).1 = some (.error (.ssmQuery e)))
    ∧ (∀ (gp : List SSMPage) (ge : List EC2Page) (e : String)
        (rest : List (Except String EC2Page)),
        env.ssmPages = gp.map Except.ok →
        (∀ p ∈ ge, (walkPage p).isSome = true) →
        env.ec2Pages = ge.map Except.ok ++ .error e :: rest →
        (Processing env).1 = some (.error (.ec2Query e))) := by
  rw [processing_fst_of_auth_ok env h0 hauth]
  constructor
  · intro gs e rest hss
    unfold discover
    rw [hss, runSSM_page_error]
  · intro gp ge e rest hss hw hec
    unfold discover
    rw [hss, runSSM_all_ok, hec, runEC2_page_error ge hw]

/-- Concrete environment for the C5 witness: authenticated run whose
parameter search fails on the second of three pages, mirroring the
spec's example. -/
def c5Env : Env where
  endpointURL := ""
  loadConfig := .ok ()
  validate := .ok ()
  lookPath := .ok ()
  loginRun := .ok ()
  reloadConfig := .ok ()
  ssmPages := [.ok ⟨[some "p1"]⟩, .error "page fetch timeout", .ok ⟨[some "p3"]⟩]
  ec2Pages := []

/-- Concrete environment for the C5 witness, instance-walk side: the
instance listing fails on its second page. -/
def c5EnvEc2 : Env where
  endpointURL := ""
  loadConfig := .ok ()
  validate := .ok ()
  lookPath := .ok ()
  loginRun := .ok ()
  reloadConfig := .ok ()
  ssmPages := [.ok ⟨[some "p1"]⟩]
  ec2Pages := [.ok ⟨[⟨[⟨[⟨some "Name", some "web"⟩], some "ami-1"⟩]⟩]⟩,
               .error "page fetch timeout", .ok ⟨[]⟩]

/-- Witness for C5: both a failing parameter-search page and a failing
instance-listing page abort the run with exactly the wrapped page
error. -/
theorem c5_page_failure_aborts_run_witness :
    (Processing c5Env).1 = some (.error (.ssmQuery "page fetch timeout"))
    ∧ (Processing c5EnvEc2).1 = some (.error (.ec2Query "page fetch timeout")) := by
  constructor
  · exact (c5_page_failure_aborts_run c5Env rfl (Or.inl rfl)).1
      [⟨[some "p1"]⟩] "page fetch timeout" [.ok ⟨[some "p3"]⟩] rfl
  · exact (c5_page_failure_aborts_run c5EnvEc2 rfl (Or.inl rfl)).2
      [⟨[some "p1"]⟩] [⟨[⟨[⟨[⟨some "Name", some "web"⟩], some "ami-1"⟩]⟩]⟩]
      "page fetch timeout" [.ok ⟨[]⟩] rfl (by decide) rfl

/-- C6: over any sequence of successful result pages the parameter
search returns exactly the names whose identifier pointer is present,
in page/item arrival order, duplicates across pages preserved; in
particular pages `[[a, b], [a]]` yield `[a, b, a]`
(app.go lines 238-249). -/
theorem c6_param_order_duplicates (pages : List SSMPage) :
    runSSM (pages.map .ok) = .ok ((pages.map pageNames).flatten)
    ∧ runSSM [.ok ⟨[some "a", some "b"]⟩, .ok ⟨[some "a"]⟩]
        = .ok ["a", "b", "a"] :=
  ⟨runSSM_all_ok pages, by rfl⟩

/-! ## Instance projection (C7, C10) -/

/-- True when the first "Name"-keyed tag, if any, carries a present
value pointer. -/
def nameValuePresent (tags : List Ec2Tag) : Bool :=
  match tags.find? (fun u => u.key = some "Name") with
  | some t => t.value.isSome
  | none => true

/-- The precondition under which the tag loop cannot hit a nil
dereference: every tag key pointer present, and the first "Name" tag's
value pointer present. -/
def wellTagged (inst : Ec2InstanceData) : Prop :=
  (∀ t ∈ inst.tags, t.key.isSome = true)
  ∧ nameValuePresent inst.tags = true

instance (inst : Ec2InstanceData) : Decidable (wellTagged inst) := by
  unfold wellTagged
  infer_instance

/-- The record the spec predicts for one instance: display name from the
first tag whose key equals "Name" (empty when absent), machine image
identifier from the image reference (empty when absent). -/
def specRecordOf (inst : Ec2InstanceData) : EC2Instance where
  Name := match inst.tags.find? (fun u => u.key = some "Name") with
          | some t => t.value.getD ""
          | none => ""
  AMI := inst.imageId.getD ""

/-- Under the precondition, the tag loop agrees with the spec's
first-"Name"-tag description. -/
theorem findName_eq_spec (tags : List Ec2Tag)
    (hk : ∀ t ∈ tags, t.key.isSome = true)
    (hv : nameValuePresent tags = true) :
    findName tags
      = some (match tags.find? (fun u => u.key = some "Name") with
              | some t => t.value.getD ""
              | none => "") := by
  induction tags with
  | nil => rfl
  | cons t rest ih =>
    obtain ⟨k, hkeq⟩ := Option.isSome_iff_exists.1 (hk t (by simp))
    by_cases hname : k = "Name"
    · subst hname
      have hfind : List.find? (fun u : Ec2Tag => decide (u.key = some "Name"))
          (t :: rest) = some t := by
        simp [List.find?_cons, hkeq]
      unfold nameValuePresent at hv
      rw [hfind] at hv
      obtain ⟨v, hveq⟩ := Option.isSome_iff_exists.1 hv
      rw [hfind]
      simp [findName, hkeq, hveq]
    · have hfind : List.find? (fun u : Ec2Tag => decide (u.key = some "Name"))
          (t :: rest)
          = List.find? (fun u : Ec2Tag => decide (u.key = some "Name")) rest := by
        simp [List.find?_cons, hkeq, hname]
      rw [hfind]
      have hv' : nameValuePresent rest = true := by
        unfold nameValuePresent at hv ⊢
        rwa [hfind] at hv
      have := ih (fun u hu => hk u (by simp [hu])) hv'
      simp [findName, hkeq, hname, this]

/-- Under the precondition, projecting one instance succeeds and yields
exactly the spec's record. -/
theorem projInstance_eq_spec (inst : Ec2InstanceData) (h : wellTagged inst) :
    projInstance inst = some (specRecordOf inst) := by
  obtain ⟨hk, hv⟩ := h
  unfold projInstance specRecordOf
  rw [findName_eq_spec inst.tags hk hv]

/-- C7: for every list of well-tagged instances, the walk produces, in
arrival order with no sorting or deduplication, one record per instance
whose display name is the value of the first tag with key "Name" (empty
when absent) and whose machine image identifier is the image reference
(empty when absent) (app.go lines 261-280). -/
theorem c7_instance_records (insts : List Ec2InstanceData)
    (h : ∀ inst ∈ insts, wellTagged inst) :
    insts.mapM projInstance = some (insts.map specRecordOf) := by
  induction insts with
  | nil => rfl
  | cons i t ih =>
    have hi := projInstance_eq_spec i (h i (by simp))
    have ht := ih (fun j hj => h j (by simp [hj]))
    simp only [List.mapM_cons, hi, ht, List.map_cons]
    rfl

/-- The two instances of the spec's example. -/
def c7Inst1 : Ec2InstanceData where
  tags := [⟨some "Env", some "x"⟩, ⟨some "Name", some "web"⟩]
  imageId := some "ami-1"

/-- The untagged, image-less instance of the spec's example. -/
def c7Inst2 : Ec2InstanceData where
  tags := []
  imageId := none

/-- Witness for C7 at the spec's examples. -/
theorem c7_instance_records_witness :
    [c7Inst1, c7Inst2].mapM projInstance
      = some [{ Name := "web", AMI := "ami-1" }, { Name := "", AMI := "" }] := by
  have h := c7_instance_records [c7Inst1, c7Inst2] (by decide)
  rw [h]
  rfl

/-- C10 counterexample: an instance bearing a tag with an absent key
does NOT always fault — when a "Name"-keyed tag precedes it, the tag
loop breaks before dereferencing the absent key and the walk returns a
record. -/
theorem c10_absent_key_cex :
    projInstance ⟨[⟨some "Name", some "web"⟩, ⟨none, none⟩], some "ami-1"⟩
      = some { Name := "web", AMI := "ami-1" } := by rfl

/-- C10 amended: the tag loop dereferences key pointers only up to the
first "Name"-keyed tag, so the walk is total under the precondition that
every tag key and the first "Name" tag's value are present; an instance
bearing a tag with an absent key that is NOT preceded by a "Name"-keyed
tag (or whose first "Name" tag has an absent value) makes the walk fault
instead of returning a result or an error (app.go lines 263-269). -/
theorem c10_walk_fault_conditions (tags1 tags2 : List Ec2Tag) (t : Ec2Tag)
    (img : Option String)
    (h1 : ∀ u ∈ tags1, ∃ k, u.key = some k ∧ k ≠ "Name")
    (h2 : t.key = none ∨ (t.key = some "Name" ∧ t.value = none)) :
    projInstance ⟨tags1 ++ t :: tags2, img⟩ = none
    ∧ walkPage ⟨[⟨[⟨tags1 ++ t :: tags2, img⟩]⟩]⟩ = none
    ∧ ∀ inst : Ec2InstanceData, wellTagged inst →
        (projInstance inst).isSome = true := by
  have hfn : findName (tags1 ++ t :: tags2) = none := by
    induction tags1 with
    | nil =>
      rcases h2 with hk | ⟨hk, hval⟩
      · simp [findName, hk]
      · simp [findName, hk, hval]
    | cons u rest ih =>
      obtain ⟨k, hkeq, hkne⟩ := h1 u (by simp)
      have := ih (fun w hw => h1 w (by simp [hw]))
      simp [findName, hkeq, hkne, this]
  have hproj : projInstance ⟨tags1 ++ t :: tags2, img⟩ = none := by
    unfold projInstance
    rw [hfn]
  refine ⟨hproj, ?_, ?_⟩
  · unfold walkPage
    simp only [List.map_cons, List.map_nil, List.flatten_cons, List.flatten_nil,
      List.append_nil, List.mapM_cons, hproj]
    rfl
  · intro inst h
    rw [projInstance_eq_spec inst h]
    rfl

/-- Witness for C10 amended: a leading tag with key "Env" and then a tag
with an absent key faults the walk. -/
theorem c10_walk_fault_conditions_witness :
    projInstance ⟨[⟨some "Env", some "x"⟩, ⟨none, none⟩], some "ami-1"⟩ = none
    ∧ walkPage ⟨[⟨[⟨[⟨some "Env", some "x"⟩, ⟨none, none⟩], some "ami-1"⟩]⟩]⟩
        = none
    ∧ ∀ inst : Ec2InstanceData, wellTagged inst →
        (projInstance inst).isSome = true := by
  have h := c10_walk_fault_conditions [⟨some "Env", some "x"⟩] []
    ⟨none, none⟩ (some "ami-1")
    (by
      intro u hu
      simp only [List.mem_singleton] at hu
      subst hu
      exact ⟨"Env", rfl, by decide⟩)
    (Or.inl rfl)
  simpa using h

/-! ## Endpoint override resolver (app.go lines 48-77) -/

/-- An INI file as read by `ini.Load`: ordered sections, each an ordered
flat key/value mapping. -/
structure IniFile where
  sections : List (String × List (String × String))

/-- `cfg.Section(name)`: the named section's key/value pairs; go-ini
auto-creates an empty section when the name is absent, so absence yields
the empty mapping, never an error. -/
def sectionOf (cfg : IniFile) (name : String) : List (String × String) :=
  match cfg.sections.find? (fun s => s.1 = name) with
  | some s => s.2
  | none => []

/-- `section.HasKey(k)`. -/
def hasKeyIni (sec : List (String × String)) (k : String) : Bool :=
  (sec.find? (fun kv => kv.1 = k)).isSome

/-- `section.Key(k).String()`: the key's value, "" when absent. -/
def keyStringIni (sec : List (String × String)) (k : String) : String :=
  match sec.find? (fun kv => kv.1 = k) with
  | some kv => kv.2
  | none => ""

/-- `getEndpointFromConfig` (app.go lines 48-77). `home = none` models
`os.UserHomeDir` failing; `load = none` models `ini.Load` failing (for
example a missing config file). The function is total: it returns ""
(absent) in every failure case and never raises. -/
def getEndpointFromConfig (home : Option String) (load : Option IniFile)
    (profile : String) : String :=
  match home with
  | none => ""
  | some _ =>
    match load with
    | none => ""
    | some cfg =>
      let sectionName := if profile = "default" then "default"
                         else "profile " ++ profile
      let sec0 := sectionOf cfg sectionName
      let sec := if hasKeyIni sec0 "endpoint_url" then sec0
                 else sectionOf cfg profile
      if hasKeyIni sec "endpoint_url" then keyStringIni sec "endpoint_url"
      else ""

/-- The conventional section name the resolver consults first: the
profile name with the "profile " prefixing convention, except the
distinguished "default" profile which uses the unprefixed name. -/
def prefixedSectionName (profile : String) : String :=
  if profile = "default" then "default" else "profile " ++ profile

/-- C8: the resolver consults the conventionally prefixed section first,
falls back to the bare profile name as section key only when the
override key is absent there, and returns absent ("") when neither
lookup yields the key, when the config file cannot be loaded, or when
the home directory cannot be determined — in particular every profile
with no override configured resolves to absent. Totality of
`getEndpointFromConfig` is the "never raises" part
(app.go lines 48-77). -/
theorem c8_endpoint_lookup_order (h : String) (cfg : IniFile)
    (profile : String) :
    (∀ load, getEndpointFromConfig none load profile = "")
    ∧ getEndpointFromConfig (some h) none profile = ""
    ∧ (hasKeyIni (sectionOf cfg (prefixedSectionName profile)) "endpoint_url"
          = true →
        getEndpointFromConfig (some h) (some cfg) profile
          = keyStringIni (sectionOf cfg (prefixedSectionName profile))
              "endpoint_url")
    ∧ (hasKeyIni (sectionOf cfg (prefixedSectionName profile)) "endpoint_url"
          = false →
        hasKeyIni (sectionOf cfg profile) "endpoint_url" = true →
        getEndpointFromConfig (some h) (some cfg) profile
          = keyStringIni (sectionOf cfg profile) "endpoint_url")
    ∧ (hasKeyIni (sectionOf cfg (prefixedSectionName profile)) "endpoint_url"
          = false →
        hasKeyIni (sectionOf cfg profile) "endpoint_url" = false →
        getEndpointFromConfig (some h) (some cfg) profile = "") := by
  refine ⟨fun load => rfl, rfl, ?_, ?_, ?_⟩
  · intro h0
    unfold prefixedSectionName at h0
    simp [getEndpointFromConfig, prefixedSectionName, h0]
  · intro h0 h1
    unfold prefixedSectionName at h0
    simp [getEndpointFromConfig, prefixedSectionName, h0, h1]
  · intro h0 h1
    unfold prefixedSectionName at h0
    simp [getEndpointFromConfig, prefixedSectionName, h0, h1]

/-- A config file with a dev profile carrying no endpoint override, and
a bare-named localstack section carrying one. -/
def c8Cfg : IniFile where
  sections := [("profile dev", [("region", "us-east-1")]),
               ("localstack", [("endpoint_url", "http://localhost:4566")])]

/-- Witness for C8: the dev profile (no override anywhere) resolves to
absent, and the localstack profile resolves through the bare-name
fallback. -/
theorem c8_endpoint_lookup_order_witness :
    getEndpointFromConfig (some "/home/u") (some c8Cfg) "dev" = ""
    ∧ getEndpointFromConfig (some "/home/u") (some c8Cfg) "localstack"
        = "http://localhost:4566" := by
  constructor
  · exact (c8_endpoint_lookup_order "/home/u" c8Cfg "dev").2.2.2.2
      (by decide) (by decide)
  · exact ((c8_endpoint_lookup_order "/home/u" c8Cfg "localstack").2.2.2.1
      (by decide) (by decide)).trans (by decide)
